import Mathlib

/-!
Verification development for the `acp-qwen-code` adapter (`src/utils.ts`,
`src/agent.ts` contents of the repository's `src/` tree).

The TypeScript source is shallowly embedded below:
* pure string helpers (`cleanPromptText`, `extractPermissionMode`,
  `isSetupMessage`, the stream-filter predicates) become Lean functions on
  `String` / `List Char`;
* `QwenCodeAgent.buildQwenArgs` and `convertPromptToText` become pure
  functions over an explicit `ContentBlock` / `PermissionMode` data model;
* the prompt/process lifecycle (`handlePrompt`, `cancelSession`,
  `processWithQwenCode`) becomes a small-step event system over a `World`
  state: each synchronous JavaScript segment (the prologue of a prompt up to
  its `await`, the continuation after the awaited promise settles, the abort
  listener, the `exit`/`data` handlers, the 60s timer callback) is one atomic
  step, matching Node's single-threaded event-loop semantics.

JavaScript string semantics are modelled explicitly: `jsTrim` is
`String.prototype.trim` (restricted to the ASCII whitespace actually
occurring in this code's strings), `splitNL` is `split("\n")`, `containsSub`
is `String.prototype.includes`, and `stripMarkers` is the global regex
replacement `.replace(/\[ACP:PERMISSION:\w+\]/g, "")`.
-/

/-- ASCII whitespace as matched by JavaScript `\s` and `trim()` on the
character set appearing in this program. -/
def isJsSpace (c : Char) : Bool :=
  c = ' ' || c = '\t' || c = '\n' || c = '\r' || c = '\x0b' || c = '\x0c'

/-- JavaScript `\w`: ASCII letters, digits, underscore. -/
def isWordChar (c : Char) : Bool :=
  c.isAlphanum || c = '_'

/-- Drop characters from the end of a list while a predicate holds. -/
def dropEndWhile (p : Char → Bool) (l : List Char) : List Char :=
  (l.reverse.dropWhile p).reverse

/-- `String.prototype.trim` over a character list. -/
def jsTrimL (l : List Char) : List Char :=
  dropEndWhile isJsSpace (l.dropWhile isJsSpace)

/-- `String.prototype.trim`. -/
def jsTrim (s : String) : String :=
  String.mk (jsTrimL s.data)

/-- Test whether the first list is a prefix of the second. -/
def isPre : List Char → List Char → Bool
  | [], _ => true
  | _ :: _, [] => false
  | p :: ps, c :: cs => p = c && isPre ps cs

/-- If the first list is a prefix of the second, return the rest. -/
def dropStart : List Char → List Char → Option (List Char)
  | [], s => some s
  | _ :: _, [] => none
  | p :: ps, c :: cs => if p = c then dropStart ps cs else none

/-- JavaScript `String.prototype.includes` (substring test), pattern first. -/
def subL (pat : List Char) : List Char → Bool
  | [] => pat.isEmpty
  | c :: cs => isPre pat (c :: cs) || subL pat cs

/-- `s.includes(pat)`. -/
def containsSub (s pat : String) : Bool :=
  subL pat.data s.data

/-- `data.split("\n")` over a character list: the segments between newline
characters, in order; always nonempty, and an empty final segment records a
trailing newline, exactly as in JavaScript. -/
def splitNLAux : List Char → List (List Char)
  | [] => [[]]
  | c :: cs =>
    if c = '\n' then [] :: splitNLAux cs
    else
      match splitNLAux cs with
      | [] => [[c]]
      | h :: t => (c :: h) :: t

/-- `data.split("\n")`. -/
def splitNL (s : String) : List String :=
  (splitNLAux s.data).map String.mk

/-- `lines.join("\n")`. -/
def joinNL : List String → String
  | [] => ""
  | [s] => s
  | s :: rest => s ++ "\n" ++ joinNL rest

/-- Case-insensitive `startsWith` against an all-lowercase pattern:
models a `/^pattern/i` regular-expression test. -/
def lowerStartsWith (s p : String) : Bool :=
  isPre p.data (s.data.map Char.toLower)

/-! ### `isSetupMessage` (src/utils.ts lines 13-27)

Each regular expression in `setupPatterns` is embedded as one predicate. -/

/-- Setup pattern `/^qwen version/i`. -/
def patVersion (s : String) : Bool := lowerStartsWith s "qwen version"

/-- Setup pattern `/^loading\.\.\./i`. -/
def patLoading (s : String) : Bool := lowerStartsWith s "loading..."

/-- Setup pattern `/^initializing\.\.\./i`. -/
def patInitializing (s : String) : Bool := lowerStartsWith s "initializing..."

/-- Setup pattern `/^starting\.\.\./i`. -/
def patStarting (s : String) : Bool := lowerStartsWith s "starting..."

/-- Setup pattern `/^\[.*\]\s*$/` (a bracketed tag standing alone): the
string opens with `[`, its last non-whitespace character is `]`, and the
bracketed middle crosses no line break (regex `.` matches neither `\n` nor
`\r`). -/
def patBracket (s : String) : Bool :=
  match s.data with
  | '[' :: rest =>
    let r := dropEndWhile isJsSpace rest
    (r.getLast? == some ']') && !(r.dropLast.any (fun c => c = '\n' || c = '\r'))
  | _ => false

/-- Setup pattern `/^>\s*$/` (empty prompt marker). -/
def patPrompt (s : String) : Bool :=
  match s.data with
  | '>' :: rest => rest.all isJsSpace
  | _ => false

/-- Setup pattern `/^Model:\s*\w+/i`. -/
def patModel (s : String) : Bool :=
  match dropStart "model:".data (s.data.map Char.toLower) with
  | some rest =>
    match rest.dropWhile isJsSpace with
    | c :: _ => isWordChar c
    | [] => false
  | none => false

/-- Setup pattern `/^Using model:/i`. -/
def patUsingModel (s : String) : Bool := lowerStartsWith s "using model:"

/-- Setup pattern `/^Connected to/i`. -/
def patConnected (s : String) : Bool := lowerStartsWith s "connected to"

/-- `isSetupMessage` from src/utils.ts: true when any of the nine setup
patterns matches the line. -/
def isSetupMessage (s : String) : Bool :=
  patVersion s || patLoading s || patInitializing s || patStarting s ||
  patBracket s || patPrompt s || patModel s || patUsingModel s || patConnected s

/-! ### `cleanPromptText` and `extractPermissionMode` (src/utils.ts 94-110) -/

/-- Try to match the regex `\[ACP:PERMISSION:\w+\]` at the head of the list;
on success return the remainder after the match.  `\w+` is greedy and `]` is
not a word character, so a match takes the maximal word-character run after
the fixed prefix and then requires a `]`. -/
def markerTail (cs : List Char) : Option (List Char) :=
  match dropStart "[ACP:PERMISSION:".data cs with
  | none => none
  | some rest =>
    match rest.dropWhile isWordChar with
    | ']' :: r => if (rest.takeWhile isWordChar).isEmpty then none else some r
    | _ => none

/-- One pass of `.replace(/\[ACP:PERMISSION:\w+\]/g, "")`: scan left to
right, deleting each non-overlapping match and continuing after it.  The
fuel argument starts at the list length; every recursive call removes at
least one character, so the fuel never runs out. -/
def stripGo : Nat → List Char → List Char
  | 0, _ => []
  | _ + 1, [] => []
  | n + 1, c :: cs =>
    match markerTail (c :: cs) with
    | some r => stripGo n r
    | none => c :: stripGo n cs

/-- `text.replace(/\[ACP:PERMISSION:\w+\]/g, "")` (the replacement part of
`cleanPromptText`, before the trim). -/
def stripMarkers (s : String) : String :=
  String.mk (stripGo s.data.length s.data)

/-- `cleanPromptText` from src/utils.ts: strip ACP permission markers, then
trim. -/
def cleanPromptText (t : String) : String :=
  jsTrim (stripMarkers t)

/-- `extractPermissionMode` from src/utils.ts. -/
def extractPermissionMode (t : String) : Option String :=
  if containsSub t "[ACP:PERMISSION:ACCEPT_EDITS]" then some "acceptEdits"
  else if containsSub t "[ACP:PERMISSION:BYPASS]" then some "bypassPermissions"
  else if containsSub t "[ACP:PERMISSION:DEFAULT]" then some "default"
  else none

/-! ### Prompt flattening and argument building (agent source, lines
314-329 and 525-543) -/

/-- The configured permission mode (`QwenCodeConfig.permissionMode`). -/
inductive PermissionMode
  | default
  | acceptEdits
  | bypassPermissions
deriving DecidableEq

/-- An ACP prompt content block, as far as `convertPromptToText` inspects
it: a text block, a resource block whose embedded resource either carries
inline text or not, or any other block kind (ignored). -/
inductive ContentBlock
  | text (t : String)
  | resource (uri : String) (rtext : Option String)
  | other
deriving DecidableEq

/-- The accumulation loop of `convertPromptToText`: text blocks contribute
their cleaned text plus a newline; resource blocks with inline text
contribute a labeled fenced code block; everything else is skipped. -/
def convertBody : List ContentBlock → String
  | [] => ""
  | .text t :: rest => cleanPromptText t ++ "\n" ++ convertBody rest
  | .resource uri (some rt) :: rest =>
    "\nFile: " ++ uri ++ "\n```\n" ++ rt ++ "\n```\n" ++ convertBody rest
  | .resource _ none :: rest => convertBody rest
  | .other :: rest => convertBody rest

/-- `QwenCodeAgent.convertPromptToText`: accumulate, then `trim()`. -/
def convertPromptToText (blocks : List ContentBlock) : String :=
  jsTrim (convertBody blocks)

/-- The permission flags appended by `buildQwenArgs` for each configured
mode. -/
def modeFlags : PermissionMode → List String
  | .bypassPermissions => ["--yolo"]
  | .acceptEdits => ["--approval-mode", "auto_edit"]
  | .default => []

/-- `QwenCodeAgent.buildQwenArgs`: always `--prompt <text>`, then the
mode-dependent flags. -/
def buildQwenArgs (mode : PermissionMode) (prompt : String) : List String :=
  ["--prompt", prompt] ++ modeFlags mode

/-! ### Stream filtering and terminal resolution of one invocation
(`processWithQwenCode`, agent source lines 331-523) -/

/-- The inline noise filter applied to both streams: keep a line unless it
contains `[DEBUG]` or `Flushing log events`. -/
def keepLine (l : String) : Bool :=
  !(containsSub l "[DEBUG]" || containsSub l "Flushing log events")

/-- The `stdout` data handler's cleaned chunk:
`data.split("\n").filter(keep).join("\n")`. -/
def cleanChunk (data : String) : String :=
  joinNL ((splitNL data).filter keepLine)

/-- The `stdout` data handler's outward notification for one chunk: the
cleaned chunk when it trims to something nonempty, otherwise nothing. -/
def stdoutChunkMessage (data : String) : Option String :=
  let clean := cleanChunk data
  if jsTrim clean = "" then none else some clean

/-- The `stderr` data handler's outward notifications for one chunk: one
`[INFO] `-prefixed message per kept, non-blank line. -/
def stderrMessages (data : String) : List String :=
  ((splitNL data).filter (fun l => !(jsTrim l == "") && keepLine l)).map
    (fun l => "[INFO] " ++ l ++ "\n")

/-- The cleaned accumulated output used by the `exit` handler and the
timeout handler: filter noise lines, re-join, trim. -/
def cleanOutput (buf : String) : String :=
  jsTrim (joinNL ((splitNL buf).filter keepLine))

/-- How an invocation's promise settles (`resolve`/`reject` of the promise
returned by `processWithQwenCode`).  `resolvedNone` is `resolve(null)`. -/
inductive Settle
  | unsettled
  | resolvedNone
  | resolvedText (t : String)
  | rejectedMsg (msg : String)
deriving DecidableEq

/-- The `exit` handler's settlement decision, given the abort flag, the
exit code, the exit signal, and the accumulated buffers (agent source lines
449-485). -/
def exitSettle (aborted : Bool) (code : Int) (sig : Option String)
    (outBuf errBuf : String) : Settle :=
  if sig = some "SIGTERM" || aborted then .resolvedNone
  else if code = 0 then
    let clean := cleanOutput outBuf
    if clean = "" then .resolvedText "Request completed successfully."
    else .resolvedText clean
  else
    .rejectedMsg ("Qwen Code failed: " ++
      (if jsTrim errBuf = "" then "Process exited with code " ++ toString code
       else jsTrim errBuf))

/-- The timeout delay of the invocation timer, in milliseconds. -/
def timeoutMs : Nat := 60000

/-! ### The session/process lifecycle as a small-step event system

One session (the claims are all per-session).  Prompt invocations are
numbered in the order `handlePrompt` is entered; `World.invs` maps each
number to that invocation's record and `World.next` is the next unused
number.  Each step function below is one synchronous segment of the source,
run to completion without interleaving, exactly as Node's event loop runs
it. -/

/-- The lifecycle of the child process spawned for one invocation. -/
inductive ProcState
  | alive
  | killedPending
  | exited
deriving DecidableEq

/-- Where an invocation's `handlePrompt` call stands: not yet entered,
suspended at `await processWithQwenCode`, or returned. -/
inductive Phase
  | notStarted
  | awaiting
  | done
deriving DecidableEq

/-- The per-invocation record: its `AbortController`'s aborted flag,
whether its abort listener is still registered (removed by `cleanup`), its
promise settlement, its `handlePrompt` phase, its child process (if
spawned), the accumulated stream buffers, the returned stop reason, and
whether its 60s timer has fired. -/
structure PromptInv where
  aborted : Bool := false
  listener : Bool := false
  settle : Settle := .unsettled
  phase : Phase := .notStarted
  proc : Option ProcState := none
  outBuf : String := ""
  errBuf : String := ""
  stopReason : Option String := none
  timerDone : Bool := false

/-- The session-plus-event-loop state: the session's two mutable handles
(`pendingPrompt`, `qwenProcess`, each holding the number of the owning
invocation), its conversation history, and all invocation records. -/
structure World where
  pendingPrompt : Option Nat := none
  qwenProcess : Option Nat := none
  history : List String := []
  invs : Nat → PromptInv := fun _ => {}
  next : Nat := 0

/-- Update one invocation record. -/
def setInv (w : World) (i : Nat) (f : PromptInv → PromptInv) : World :=
  { w with invs := fun k => if k = i then f (w.invs k) else w.invs k }

/-- `resolve`/`reject` settle a promise only once; later calls are no-ops. -/
def settleOnce (w : World) (i : Nat) (v : Settle) : World :=
  setInv w i (fun inv =>
    match inv.settle with
    | .unsettled => { inv with settle := v }
    | _ => inv)

/-- `kill("SIGTERM")`: a live process gets the signal; killing an already
killed or exited process changes nothing. -/
def killProcState : Option ProcState → Option ProcState
  | some .alive => some .killedPending
  | p => p

/-- The `abortHandler` closure of invocation `j` (agent source lines
346-352): kill and clear whatever process handle the session currently
holds, then `resolve(null)` invocation `j`'s promise. -/
def abortFire (w : World) (j : Nat) : World :=
  let w1 :=
    match w.qwenProcess with
    | some k =>
      { setInv w k (fun inv => { inv with proc := killProcState inv.proc }) with
        qwenProcess := none }
    | none => w
  settleOnce w1 j .resolvedNone

/-- `AbortController.abort()` on invocation `j`'s controller: set the
aborted flag and fire the abort listener synchronously, if one is still
registered.  Aborting twice is a no-op. -/
def runAbort (w : World) (j : Nat) : World :=
  if (w.invs j).aborted then w
  else
    let w1 := setInv w j (fun inv => { inv with aborted := true })
    if (w1.invs j).listener then abortFire w1 j else w1

/-- `session.pendingPrompt?.abort()` at the top of `handlePrompt` (line
245). -/
def abortPending (w : World) : World :=
  match w.pendingPrompt with
  | some j => runAbort w j
  | none => w

/-- The rest of `handlePrompt`'s synchronous prologue plus the synchronous
part of `processWithQwenCode` (lines 246-267 and 336-391): install the
fresh controller as `session.pendingPrompt`, push the user turn, then — in
the promise executor — either resolve immediately when the fresh signal is
already aborted, or register the abort listener, spawn the process, and
register it as `session.qwenProcess`.  The prompt then suspends at its
`await`. -/
def spawnPart (w : World) (promptText : String) : World :=
  let i := w.next
  let w1 := { w with
    pendingPrompt := some i
    next := i + 1
    invs := fun k => if k = i then { phase := Phase.awaiting } else w.invs k }
  let w2 := { w1 with history := w1.history ++ ["User: " ++ promptText] }
  if (w2.invs i).aborted then
    settleOnce w2 i .resolvedNone
  else
    let w3 := setInv w2 i (fun inv =>
      { inv with listener := true, proc := some .alive })
    { w3 with qwenProcess := some i }

/-- One `handlePrompt` entry, up to its suspension point: abort any previous
pending prompt, then run the prologue and spawn. -/
def startPrompt (w : World) (blocks : List ContentBlock) : World :=
  spawnPart (abortPending w) (convertPromptToText blocks)

/-- `cleanup` (lines 388-391): deregister the abort listener of invocation
`i` and clear the session's process handle — unconditionally, whichever
invocation that handle currently belongs to. -/
def cleanupStep (w : World) (i : Nat) : World :=
  { setInv w i (fun inv => { inv with listener := false }) with
    qwenProcess := none }

/-- The `exit` handler of invocation `i`'s process (lines 449-485):
`cleanup`, then settle according to signal / abort flag / exit code /
buffers. -/
def procExit (w : World) (i : Nat) (code : Int) (sig : Option String) : World :=
  let inv := w.invs i
  let w1 := cleanupStep w i
  let w2 := setInv w1 i (fun inv => { inv with proc := some .exited })
  settleOnce w2 i (exitSettle inv.aborted code sig inv.outBuf inv.errBuf)

/-- The 60-second timer callback of invocation `i` (lines 495-521): if the
signal has not fired and the process has been neither killed nor exited,
kill it, `cleanup`, and settle with the partial cleaned output when there is
any, or reject with the timeout error. -/
def timeoutFire (w : World) (i : Nat) : World :=
  let inv := w.invs i
  let w0 := setInv w i (fun inv => { inv with timerDone := true })
  if !inv.aborted && inv.proc = some ProcState.alive then
    let w1 := setInv w0 i (fun inv => { inv with proc := some .killedPending })
    let w2 := cleanupStep w1 i
    let clean := cleanOutput inv.outBuf
    if clean = "" then
      settleOnce w2 i (.rejectedMsg "Timeout waiting for response from Qwen Code")
    else
      settleOnce w2 i (.resolvedText clean)
  else w0

/-- A `stdout` data event for invocation `i`'s process: append to the
output accumulator. -/
def dataOut (w : World) (i : Nat) (chunk : String) : World :=
  setInv w i (fun inv => { inv with outBuf := inv.outBuf ++ chunk })

/-- A `stderr` data event for invocation `i`'s process: append to the
error accumulator. -/
def dataErr (w : World) (i : Nat) (chunk : String) : World :=
  setInv w i (fun inv => { inv with errBuf := inv.errBuf ++ chunk })

/-- The continuation of `handlePrompt` after its awaited promise settles
(lines 269-295): on a text resolution push the assistant turn (JavaScript
truthiness: only when the text is nonempty) and return `end_turn`; on a
null resolution return `end_turn` with no turn; on a rejection return
`cancelled` when the signal was aborted, else `end_turn`.  The `finally`
block then clears `session.pendingPrompt` unconditionally. -/
def resumePrompt (w : World) (i : Nat) : World :=
  let inv := w.invs i
  let w1 :=
    match inv.settle with
    | .resolvedText t =>
      let w' := if t = "" then w
                else { w with history := w.history ++ ["Assistant: " ++ t] }
      setInv w' i (fun inv => { inv with stopReason := some "end_turn" })
    | .resolvedNone =>
      setInv w i (fun inv => { inv with stopReason := some "end_turn" })
    | .rejectedMsg _ =>
      setInv w i (fun inv =>
        { inv with stopReason := some (if inv.aborted then "cancelled" else "end_turn") })
    | .unsettled => w
  let w2 := setInv w1 i (fun inv => { inv with phase := .done })
  { w2 with pendingPrompt := none }

/-- `QwenCodeAgent.cancelSession` (lines 226-239): with no pending prompt,
throw (no state change); otherwise abort the pending controller (running
its listener synchronously), clear the cancellation handle, and finally
kill and clear the process handle if one is still registered. -/
def cancelSession (w : World) : World :=
  match w.pendingPrompt with
  | none => w
  | some j =>
    let w1 := runAbort w j
    let w2 := { w1 with pendingPrompt := none }
    match w2.qwenProcess with
    | some k =>
      { setInv w2 k (fun inv => { inv with proc := killProcState inv.proc }) with
        qwenProcess := none }
    | none => w2

/-- A fresh session (`newSession`): empty history, no handles. -/
def initWorld : World := {}

/-- All states reachable from a fresh session by the event steps above.
Each constructor's side conditions are the event's enabling conditions: a
continuation resumes only after its promise settled, process events fire
only for a spawned, not-yet-exited process, the timer fires once. -/
inductive Reach : World → Prop
  | init : Reach initWorld
  | stepStart {w : World} (blocks : List ContentBlock) :
      Reach w → Reach (startPrompt w blocks)
  | stepResume {w : World} (i : Nat) :
      Reach w → (w.invs i).phase = Phase.awaiting →
      (w.invs i).settle ≠ Settle.unsettled → Reach (resumePrompt w i)
  | stepCancel {w : World} : Reach w → Reach (cancelSession w)
  | stepExit {w : World} (i : Nat) (code : Int) (sig : Option String) :
      Reach w →
      ((w.invs i).proc = some ProcState.alive ∨
        (w.invs i).proc = some ProcState.killedPending) →
      Reach (procExit w i code sig)
  | stepTimeout {w : World} (i : Nat) :
      Reach w → (w.invs i).proc ≠ none → (w.invs i).timerDone = false →
      Reach (timeoutFire w i)
  | stepDataOut {w : World} (i : Nat) (chunk : String) :
      Reach w → (w.invs i).proc = some ProcState.alive →
      Reach (dataOut w i chunk)
  | stepDataErr {w : World} (i : Nat) (chunk : String) :
      Reach w → (w.invs i).proc = some ProcState.alive →
      Reach (dataErr w i chunk)

/-- Reachability under serialized prompts: identical to `Reach`, except a
new prompt may start only when no previous prompt invocation is still
suspended mid-flight. -/
inductive ReachSer : World → Prop
  | init : ReachSer initWorld
  | stepStart {w : World} (blocks : List ContentBlock) :
      ReachSer w → (∀ j, j < w.next → (w.invs j).phase ≠ Phase.awaiting) →
      ReachSer (startPrompt w blocks)
  | stepResume {w : World} (i : Nat) :
      ReachSer w → (w.invs i).phase = Phase.awaiting →
      (w.invs i).settle ≠ Settle.unsettled → ReachSer (resumePrompt w i)
  | stepCancel {w : World} : ReachSer w → ReachSer (cancelSession w)
  | stepExit {w : World} (i : Nat) (code : Int) (sig : Option String) :
      ReachSer w →
      ((w.invs i).proc = some ProcState.alive ∨
        (w.invs i).proc = some ProcState.killedPending) →
      ReachSer (procExit w i code sig)
  | stepTimeout {w : World} (i : Nat) :
      ReachSer w → (w.invs i).proc ≠ none → (w.invs i).timerDone = false →
      ReachSer (timeoutFire w i)
  | stepDataOut {w : World} (i : Nat) (chunk : String) :
      ReachSer w → (w.invs i).proc = some ProcState.alive →
      ReachSer (dataOut w i chunk)
  | stepDataErr {w : World} (i : Nat) (chunk : String) :
      ReachSer w → (w.invs i).proc = some ProcState.alive →
      ReachSer (dataErr w i chunk)

/-- The handle/phase invariant used for the serialized-reachability proof:
(a) a registered process handle belongs to the pending, still-unsettled,
still-listening, still-alive invocation; (b) the pending invocation is
suspended mid-flight; (c) at most one invocation is mid-flight; (d)
mid-flight invocations have already been numbered. -/
def HandleInv (w : World) : Prop :=
  (∀ i, w.qwenProcess = some i →
      w.pendingPrompt = some i ∧ (w.invs i).phase = Phase.awaiting ∧
      (w.invs i).settle = Settle.unsettled ∧ (w.invs i).proc = some ProcState.alive ∧
      (w.invs i).listener = true) ∧
  (∀ j, w.pendingPrompt = some j → (w.invs j).phase = Phase.awaiting) ∧
  (∀ j k, (w.invs j).phase = Phase.awaiting → (w.invs k).phase = Phase.awaiting → j = k) ∧
  (∀ j, (w.invs j).phase = Phase.awaiting → j < w.next)

/-- The concrete preemption trace: prompt `0` starts and spawns; prompt `1`
starts on the same session while `0` is mid-flight; then `0`'s suspended
continuation runs. -/
def preemptWorld : World :=
  resumePrompt (startPrompt (startPrompt initWorld [ContentBlock.text "a"])
    [ContentBlock.text "b"]) 0

/-- The concrete mid-flight cancellation trace: prompt `0` starts and
spawns, a cancel notification arrives, then `0`'s suspended continuation
runs. -/
def cancelWorld : World :=
  resumePrompt (cancelSession (startPrompt initWorld [ContentBlock.text "hi"])) 0

/-- The two-prompt preemption prefix: prompt `0` starts and spawns, then
prompt `1` starts on the same session while `0` is still mid-flight. -/
def twoStartWorld : World :=
  startPrompt (startPrompt initWorld [ContentBlock.text "a"]) [ContentBlock.text "b"]

/-- Two prompt-content lists are equal up to embedded permission markers in
their text segments: corresponding text segments agree after the marker
stripping of `cleanPromptText`, and all other segments are identical. -/
inductive MarkerEquiv : List ContentBlock → List ContentBlock → Prop
  | nil : MarkerEquiv [] []
  | consText {t1 t2 : String} {r1 r2 : List ContentBlock} :
      stripMarkers t1 = stripMarkers t2 → MarkerEquiv r1 r2 →
      MarkerEquiv (ContentBlock.text t1 :: r1) (ContentBlock.text t2 :: r2)
  | consSame (b : ContentBlock) {r1 r2 : List ContentBlock} :
      MarkerEquiv r1 r2 → MarkerEquiv (b :: r1) (b :: r2)

/-! ## Basic lemmas about the state updates -/

theorem setInv_invs_self (w : World) (i : Nat) (f : PromptInv → PromptInv) :
    (setInv w i f).invs i = f (w.invs i) := by
  simp [setInv]

theorem setInv_invs_ne (w : World) (i : Nat) (f : PromptInv → PromptInv)
    {k : Nat} (h : k ≠ i) : (setInv w i f).invs k = w.invs k := by
  simp [setInv, h]

theorem setInv_pending (w : World) (i : Nat) (f : PromptInv → PromptInv) :
    (setInv w i f).pendingPrompt = w.pendingPrompt := rfl

theorem setInv_qwen (w : World) (i : Nat) (f : PromptInv → PromptInv) :
    (setInv w i f).qwenProcess = w.qwenProcess := rfl

theorem setInv_next (w : World) (i : Nat) (f : PromptInv → PromptInv) :
    (setInv w i f).next = w.next := rfl

/-! ## C9 -/

/-- C9: for every prompt text, the argument list is exactly
`["--prompt", text]` in default mode, `["--prompt", text, "--yolo"]` in
bypass-all mode, and `["--prompt", text, "--approval-mode", "auto_edit"]`
in accept-edits mode. -/
theorem c9_build_args_modes (text : String) :
    buildQwenArgs PermissionMode.default text = ["--prompt", text] ∧
    buildQwenArgs PermissionMode.bypassPermissions text = ["--prompt", text, "--yolo"] ∧
    buildQwenArgs PermissionMode.acceptEdits text =
      ["--prompt", text, "--approval-mode", "auto_edit"] :=
  ⟨rfl, rfl, rfl⟩

/-! ## C8 -/

/-- C8: flattening one text segment `"Fix bug"` and one embedded-resource
segment with uri `"file:///a.ts"` and inline text `"const x=1;"` produces
exactly the claimed string. -/
theorem c8_prompt_flattening :
    convertPromptToText
        [ContentBlock.text "Fix bug",
         ContentBlock.resource "file:///a.ts" (some "const x=1;")] =
      "Fix bug\n\nFile: file:///a.ts\n```\nconst x=1;\n```" := by
  decide

/-! ## C6 -/

/-- C6: an invocation whose process exits with status 0 (neither killed by
SIGTERM nor aborted) and whose accumulated standard output filters and
trims to the empty string resolves with exactly
`"Request completed successfully."`. -/
theorem c6_exit_zero_empty_output (outBuf errBuf : String)
    (h : cleanOutput outBuf = "") :
    exitSettle false 0 none outBuf errBuf =
      Settle.resolvedText "Request completed successfully." := by
  simp [exitSettle, h]

/-- Witness for C6 at a concrete buffer whose only content is noise. -/
theorem c6_exit_zero_empty_output_witness :
    exitSettle false 0 none "[DEBUG] hi\n \n" "some stderr" =
      Settle.resolvedText "Request completed successfully." :=
  c6_exit_zero_empty_output "[DEBUG] hi\n \n" "some stderr" (by decide)

/-! ## C4 -/

/-- C4 counterexample: with accumulated standard error `"[DEBUG] boom"` and
exit code 1, the rejection message carries the raw (unfiltered) standard
error, although its noise-filtered form is empty — so it is neither the
noise-filtered text nor the generic `"Process exited with code 1"` message
the claim requires. -/
theorem c4_counterexample :
    exitSettle false 1 none "" "[DEBUG] boom" =
      Settle.rejectedMsg "Qwen Code failed: [DEBUG] boom" ∧
    cleanOutput "[DEBUG] boom" = "" ∧
    Settle.rejectedMsg "Qwen Code failed: [DEBUG] boom" ≠
      Settle.rejectedMsg ("Qwen Code failed: " ++ cleanOutput "[DEBUG] boom") ∧
    Settle.rejectedMsg "Qwen Code failed: [DEBUG] boom" ≠
      Settle.rejectedMsg "Qwen Code failed: Process exited with code 1" := by
  decide

/-- C4 (amended): on a nonzero exit status without cancellation, the
invocation rejects with the trimmed RAW accumulated standard error, or with
the generic `"Process exited with code N"` message when the trimmed
standard error is empty. -/
theorem c4_exit_failure_message (code : Int) (sig : Option String)
    (outBuf errBuf : String) (hsig : sig ≠ some "SIGTERM") (hcode : code ≠ 0) :
    (jsTrim errBuf ≠ "" →
      exitSettle false code sig outBuf errBuf =
        Settle.rejectedMsg ("Qwen Code failed: " ++ jsTrim errBuf)) ∧
    (jsTrim errBuf = "" →
      exitSettle false code sig outBuf errBuf =
        Settle.rejectedMsg
          ("Qwen Code failed: Process exited with code " ++ toString code)) := by
  refine ⟨fun h => ?_, fun h => ?_⟩
  · simp [exitSettle, hsig, hcode, h]
  · simp [exitSettle, hsig, hcode, h]
    rw [← String.append_assoc]
    rfl

/-- Witness for C4's amended statement at exit code 2 and raw standard
error `" disk full "`. -/
theorem c4_exit_failure_message_witness :
    exitSettle false 2 none "" " disk full " =
      Settle.rejectedMsg "Qwen Code failed: disk full" :=
  (c4_exit_failure_message 2 none "" " disk full " (by decide) (by decide)).1 (by decide)

/-! ## C5 -/

/-- C5: if the 60-second timer fires while the invocation is neither
aborted nor its process exited or killed (and its promise is still
unsettled), the process is killed and the handle cleared, and the
invocation resolves with the filtered, trimmed partial output when that is
nonempty, else rejects with the timeout error. -/
theorem c5_timeout_resolution (w : World) (i : Nat)
    (hab : (w.invs i).aborted = false)
    (hal : (w.invs i).proc = some ProcState.alive)
    (hun : (w.invs i).settle = Settle.unsettled) :
    ((timeoutFire w i).invs i).proc = some ProcState.killedPending ∧
    (timeoutFire w i).qwenProcess = none ∧
    (cleanOutput (w.invs i).outBuf ≠ "" →
      ((timeoutFire w i).invs i).settle =
        Settle.resolvedText (cleanOutput (w.invs i).outBuf)) ∧
    (cleanOutput (w.invs i).outBuf = "" →
      ((timeoutFire w i).invs i).settle =
        Settle.rejectedMsg "Timeout waiting for response from Qwen Code") := by
  by_cases hc : cleanOutput (w.invs i).outBuf = "" <;>
    simp [timeoutFire, hab, hal, hc, cleanupStep, settleOnce, setInv, hun]

/-- Witness for C5: a prompt with partial output `"hello"` times out and
resolves with that text; the process handle is cleared. -/
theorem c5_timeout_resolution_witness :
    ((timeoutFire (dataOut (startPrompt initWorld [ContentBlock.text "hi"]) 0 "hello") 0).invs 0).settle =
      Settle.resolvedText "hello" ∧
    (timeoutFire (dataOut (startPrompt initWorld [ContentBlock.text "hi"]) 0 "hello") 0).qwenProcess = none := by
  have h := c5_timeout_resolution
    (dataOut (startPrompt initWorld [ContentBlock.text "hi"]) 0 "hello") 0
    (by decide) (by decide) (by decide)
  exact ⟨by simpa using h.2.2.1 (by decide), h.2.1⟩

/-! ## C7 -/

/-- C7 counterexample: `"qwen version 1.0"` matches the version-banner
noise criterion (`isSetupMessage` is true), yet the standard-output handler
surfaces it to the client unfiltered; and `"Flushing log events"` is one of
the spec's noise criteria yet `isSetupMessage` rejects it — the predicate
applied to the streams is not `isSetupMessage`. -/
theorem c7_counterexample :
    isSetupMessage "qwen version 1.0" = true ∧
    stdoutChunkMessage "qwen version 1.0\n" = some "qwen version 1.0\n" ∧
    isSetupMessage "Flushing log events" = false := by
  decide

/-- C7 (amended): every line matching one of the nine setup patterns
satisfies `isSetupMessage`; but the streams are filtered only by the inline
debug-tag / log-flush criteria: every standard-output line that survives
the filter contains neither `[DEBUG]` nor `Flushing log events`, and every
surfaced standard-error message is built from a kept, non-blank line. -/
theorem c7_noise_and_stream_filter :
    (∀ s : String,
      (patVersion s || patLoading s || patInitializing s || patStarting s ||
       patBracket s || patPrompt s || patModel s || patUsingModel s ||
       patConnected s) = true →
      isSetupMessage s = true) ∧
    (∀ data l, l ∈ (splitNL data).filter keepLine →
      containsSub l "[DEBUG]" = false ∧ containsSub l "Flushing log events" = false) ∧
    (∀ data m, m ∈ stderrMessages data →
      ∃ l, keepLine l = true ∧ jsTrim l ≠ "" ∧ m = "[INFO] " ++ l ++ "\n") := by
  refine ⟨fun s h => h, ?_, ?_⟩
  · intro data l hl
    have hk := (List.mem_filter.mp hl).2
    simpa [keepLine] using hk
  · intro data m hm
    obtain ⟨l, hl, rfl⟩ := List.mem_map.mp hm
    have hk := (List.mem_filter.mp hl).2
    simp at hk
    exact ⟨l, hk.2, hk.1, rfl⟩

/-- Witness for C7's amended statement on a progress line. -/
theorem c7_noise_and_stream_filter_witness :
    isSetupMessage "Loading... please wait" = true :=
  c7_noise_and_stream_filter.1 "Loading... please wait" (by decide)

/-! ## C10 -/

/-- C10 counterexample: two prompts that differ only in a permission marker
inside an embedded resource's inline text — the marker strips to nothing —
produce different argument lists, because `convertPromptToText` cleans only
text segments, not resource text. -/
theorem c10_counterexample :
    stripMarkers "[ACP:PERMISSION:BYPASS]" = stripMarkers "" ∧
    buildQwenArgs PermissionMode.default
        (convertPromptToText
          [ContentBlock.resource "file:///a.ts" (some "[ACP:PERMISSION:BYPASS]")]) ≠
      buildQwenArgs PermissionMode.default
        (convertPromptToText [ContentBlock.resource "file:///a.ts" (some "")]) := by
  decide

/-- C10 (amended): for prompts that differ only in permission markers
inside TEXT segments, the argument list is identical for every configured
mode; and the flag tail after `--prompt <text>` is determined solely by the
configured mode, never by prompt content, so a marker in the prompt cannot
change the permission flags. -/
theorem c10_marker_invariance (mode : PermissionMode) (p1 p2 : List ContentBlock)
    (h : MarkerEquiv p1 p2) :
    buildQwenArgs mode (convertPromptToText p1) =
      buildQwenArgs mode (convertPromptToText p2) ∧
    buildQwenArgs mode (convertPromptToText p1) =
      ["--prompt", convertPromptToText p1] ++ modeFlags mode := by
  have hb : convertBody p1 = convertBody p2 := by
    induction h with
    | nil => rfl
    | consText ht _ ih => simp [convertBody, cleanPromptText, ht, ih]
    | consSame b _ ih =>
      cases b with
      | text t => simp [convertBody, ih]
      | resource uri rt => cases rt <;> simp [convertBody, ih]
      | other => simp [convertBody, ih]
  exact ⟨by simp only [convertPromptToText, hb], rfl⟩

/-- Witness for C10's amended statement: a bypass marker embedded in a text
segment does not change the arguments. -/
theorem c10_marker_invariance_witness :
    buildQwenArgs PermissionMode.default
        (convertPromptToText [ContentBlock.text "Do it [ACP:PERMISSION:BYPASS]"]) =
      buildQwenArgs PermissionMode.default
        (convertPromptToText [ContentBlock.text "Do it "]) :=
  (c10_marker_invariance PermissionMode.default _ _
    (MarkerEquiv.consText (by decide) MarkerEquiv.nil)).1

/-! ## C1 -/

/-- C1: evaluation of the code at the claim's scenario — prompt `0` is
mid-flight with a spawned process, a cancel notification arrives, the
suspended continuation then runs.  The conversation history gains no
assistant turn and both session handles end up null, as claimed; but the
prompt resolves with stop reason `"end_turn"`, not `"cancelled"`: the abort
handler resolves the invocation's promise with null instead of rejecting,
so the catch branch returning `"cancelled"` is bypassed. -/
theorem c1_cancel_midflight_resolution :
    Reach cancelWorld ∧
    (cancelWorld.invs 0).aborted = true ∧
    (cancelWorld.invs 0).stopReason = some "end_turn" ∧
    (cancelWorld.invs 0).stopReason ≠ some "cancelled" ∧
    cancelWorld.history = ["User: hi"] ∧
    cancelWorld.pendingPrompt = none ∧
    cancelWorld.qwenProcess = none := by
  refine ⟨?_, by decide, by decide, by decide, by decide, by decide, by decide⟩
  exact Reach.stepResume 0 (Reach.stepCancel (Reach.stepStart _ Reach.init))
    (by decide) (by decide)

/-! ## C2 -/

/-- C2 counterexample: prompt `1` starts while prompt `0` is mid-flight on
the same session.  In the reachable state right after the second
`handlePrompt` prologue, prompt `1`'s process is already spawned and
registered while prompt `0`'s invocation has NOT yet unwound (it is still
suspended at its await) — refuting the claim that A's invocation unwinds
before B's process is spawned. -/
theorem c2_counterexample :
    Reach twoStartWorld ∧
    twoStartWorld.qwenProcess = some 1 ∧
    (twoStartWorld.invs 1).proc = some ProcState.alive ∧
    (twoStartWorld.invs 0).phase = Phase.awaiting ∧
    (twoStartWorld.invs 0).phase ≠ Phase.done := by
  refine ⟨?_, by decide, by decide, by decide, by decide⟩
  exact Reach.stepStart _ (Reach.stepStart _ Reach.init)

/-- C2 (amended): when prompt B starts while prompt A is mid-flight with a
live registered process, `handlePrompt` factors as the abort prologue
followed by the spawn part; already after the abort prologue — hence before
B's process is spawned — A's process has been sent SIGTERM, the session's
process handle is cleared, and A's promise is resolved as cancelled.  After
B's spawn the single process handle belongs to B alone, and A's process
stays terminated; but A's invocation unwinds only later. -/
theorem c2_preempt_order (w : World) (blocks : List ContentBlock) (a : Nat)
    (hp : w.pendingPrompt = some a) (hab : (w.invs a).aborted = false)
    (hl : (w.invs a).listener = true) (hq : w.qwenProcess = some a)
    (hs : (w.invs a).settle = Settle.unsettled)
    (hpr : (w.invs a).proc = some ProcState.alive) (hn : a < w.next) :
    ((abortPending w).qwenProcess = none ∧
     ((abortPending w).invs a).proc = some ProcState.killedPending ∧
     ((abortPending w).invs a).settle = Settle.resolvedNone) ∧
    startPrompt w blocks = spawnPart (abortPending w) (convertPromptToText blocks) ∧
    (startPrompt w blocks).qwenProcess = some w.next ∧
    ((startPrompt w blocks).invs a).proc = some ProcState.killedPending ∧
    ((startPrompt w blocks).invs a).settle = Settle.resolvedNone ∧
    a ≠ w.next := by
  have hane : a ≠ w.next := Nat.ne_of_lt hn
  have h1 : abortPending w = runAbort w a := by rw [abortPending, hp]
  have h2 : (abortPending w).qwenProcess = none ∧
      ((abortPending w).invs a).proc = some ProcState.killedPending ∧
      ((abortPending w).invs a).settle = Settle.resolvedNone ∧
      (abortPending w).next = w.next := by
    rw [h1]
    simp [runAbort, hab, abortFire, settleOnce, setInv, hl, hq, hs, hpr, killProcState]
  refine ⟨⟨h2.1, h2.2.1, h2.2.2.1⟩, rfl, ?_, ?_, ?_, hane⟩
  · show (spawnPart (abortPending w) (convertPromptToText blocks)).qwenProcess = some w.next
    rw [spawnPart]
    simp [setInv, h2.2.2.2, h2.1]
  · show ((spawnPart (abortPending w) (convertPromptToText blocks)).invs a).proc =
      some ProcState.killedPending
    rw [spawnPart]
    have : a ≠ (abortPending w).next := by rw [h2.2.2.2]; exact hane
    simp [setInv, this, h2.2.1]
  · show ((spawnPart (abortPending w) (convertPromptToText blocks)).invs a).settle =
      Settle.resolvedNone
    rw [spawnPart]
    have : a ≠ (abortPending w).next := by rw [h2.2.2.2]; exact hane
    simp [setInv, this, h2.2.2.1]

/-- Witness for C2's amended statement on the concrete two-prompt trace. -/
theorem c2_preempt_order_witness :
    (startPrompt (startPrompt initWorld [ContentBlock.text "a"]) [ContentBlock.text "b"]).qwenProcess =
      some (startPrompt initWorld [ContentBlock.text "a"]).next ∧
    ((startPrompt (startPrompt initWorld [ContentBlock.text "a"]) [ContentBlock.text "b"]).invs 0).proc =
      some ProcState.killedPending := by
  have h := c2_preempt_order (startPrompt initWorld [ContentBlock.text "a"])
    [ContentBlock.text "b"] 0 (by decide) (by decide) (by decide) (by decide)
    (by decide) (by decide) (by decide)
  exact ⟨h.2.2.1, h.2.2.2.1⟩

/-! ## C3 -/

/-- C3 counterexample: a reachable state in which the session's
active-process handle is set (prompt `1`'s live process) while its
active-cancellation handle is null — prompt `0`'s `finally` block cleared
`session.pendingPrompt` unconditionally after prompt `1` had installed its
own controller. -/
theorem c3_counterexample :
    Reach preemptWorld ∧
    preemptWorld.qwenProcess = some 1 ∧
    (preemptWorld.invs 1).proc = some ProcState.alive ∧
    preemptWorld.pendingPrompt = none := by
  refine ⟨?_, by decide, by decide, by decide⟩
  exact Reach.stepResume 0 (Reach.stepStart _ (Reach.stepStart _ Reach.init))
    (by decide) (by decide)

/-! ## Field lemmas for the serialized-invariant induction -/

theorem settleOnce_pending (w : World) (i : Nat) (v : Settle) :
    (settleOnce w i v).pendingPrompt = w.pendingPrompt := rfl

theorem settleOnce_qwen (w : World) (i : Nat) (v : Settle) :
    (settleOnce w i v).qwenProcess = w.qwenProcess := rfl

theorem settleOnce_next (w : World) (i : Nat) (v : Settle) :
    (settleOnce w i v).next = w.next := rfl

theorem settleOnce_phase (w : World) (i : Nat) (v : Settle) (j : Nat) :
    ((settleOnce w i v).invs j).phase = (w.invs j).phase := by
  by_cases h : j = i
  · subst h
    rw [settleOnce, setInv_invs_self]
    split <;> rfl
  · rw [settleOnce, setInv_invs_ne _ _ _ h]

theorem abortFire_pending (w : World) (j : Nat) :
    (abortFire w j).pendingPrompt = w.pendingPrompt := by
  unfold abortFire
  cases w.qwenProcess <;> rfl

theorem abortFire_next (w : World) (j : Nat) :
    (abortFire w j).next = w.next := by
  unfold abortFire
  cases w.qwenProcess <;> rfl

theorem abortFire_phase (w : World) (j k : Nat) :
    ((abortFire w j).invs k).phase = (w.invs k).phase := by
  unfold abortFire
  cases hq : w.qwenProcess with
  | none => exact settleOnce_phase w j _ k
  | some m =>
    rw [settleOnce_phase]
    dsimp only
    by_cases h : k = m
    · subst h
      rw [setInv_invs_self]
    · rw [setInv_invs_ne _ _ _ h]

theorem runAbort_pending (w : World) (j : Nat) :
    (runAbort w j).pendingPrompt = w.pendingPrompt := by
  unfold runAbort
  split
  · rfl
  · dsimp only
    split
    · rw [abortFire_pending]; rfl
    · rfl

theorem runAbort_next (w : World) (j : Nat) :
    (runAbort w j).next = w.next := by
  unfold runAbort
  split
  · rfl
  · dsimp only
    split
    · rw [abortFire_next]; rfl
    · rfl

theorem runAbort_phase (w : World) (j k : Nat) :
    ((runAbort w j).invs k).phase = (w.invs k).phase := by
  unfold runAbort
  split
  · rfl
  · have hbase : ∀ k', ((setInv w j (fun inv => { inv with aborted := true })).invs k').phase =
        (w.invs k').phase := by
      intro k'
      by_cases h : k' = j
      · subst h; rw [setInv_invs_self]
      · rw [setInv_invs_ne _ _ _ h]
    dsimp only
    split
    · rw [abortFire_phase]; exact hbase k
    · exact hbase k

theorem cancelSession_next (w : World) :
    (cancelSession w).next = w.next := by
  unfold cancelSession
  cases w.pendingPrompt with
  | none => rfl
  | some j =>
    dsimp only
    split
    · rw [setInv_next, runAbort_next]
    · rw [runAbort_next]

theorem cancelSession_phase (w : World) (k : Nat) :
    ((cancelSession w).invs k).phase = (w.invs k).phase := by
  unfold cancelSession
  cases w.pendingPrompt with
  | none => rfl
  | some j =>
    dsimp only
    split
    · next m _ =>
      rw [show ∀ u : World, ({ u with qwenProcess := none } : World).invs = u.invs from fun _ => rfl]
      by_cases h : k = m
      · subst h
        rw [setInv_invs_self, runAbort_phase]
      · rw [setInv_invs_ne _ _ _ h, runAbort_phase]
    · rw [runAbort_phase]

theorem cancelSession_handles (w : World) (j : Nat) (hp : w.pendingPrompt = some j) :
    (cancelSession w).pendingPrompt = none ∧ (cancelSession w).qwenProcess = none := by
  unfold cancelSession
  rw [hp]
  dsimp only
  split
  · exact ⟨rfl, rfl⟩
  · next hq =>
    refine ⟨rfl, ?_⟩
    exact hq

theorem resumePrompt_pending (w : World) (i : Nat) :
    (resumePrompt w i).pendingPrompt = none := rfl

theorem resumePrompt_qwen (w : World) (i : Nat) :
    (resumePrompt w i).qwenProcess = w.qwenProcess := by
  unfold resumePrompt
  dsimp only
  split
  · split <;> rfl
  · rfl
  · rfl
  · rfl

theorem resumePrompt_next (w : World) (i : Nat) :
    (resumePrompt w i).next = w.next := by
  unfold resumePrompt
  dsimp only
  split
  · split <;> rfl
  · rfl
  · rfl
  · rfl

theorem resumePrompt_phase_self (w : World) (i : Nat) :
    ((resumePrompt w i).invs i).phase = Phase.done := by
  unfold resumePrompt
  dsimp only
  rw [setInv_invs_self]

theorem resumePrompt_phase_ne (w : World) (i : Nat) {j : Nat} (h : j ≠ i) :
    ((resumePrompt w i).invs j).phase = (w.invs j).phase := by
  unfold resumePrompt
  dsimp only
  rw [setInv_invs_ne _ _ _ h]
  split
  · split
    · rw [setInv_invs_ne _ _ _ h]
    · rw [setInv_invs_ne _ _ _ h]
  · rw [setInv_invs_ne _ _ _ h]
  · rw [setInv_invs_ne _ _ _ h]
  · rfl

theorem procExit_qwen (w : World) (i : Nat) (code : Int) (sig : Option String) :
    (procExit w i code sig).qwenProcess = none := rfl

theorem procExit_pending (w : World) (i : Nat) (code : Int) (sig : Option String) :
    (procExit w i code sig).pendingPrompt = w.pendingPrompt := rfl

theorem procExit_next (w : World) (i : Nat) (code : Int) (sig : Option String) :
    (procExit w i code sig).next = w.next := rfl

theorem procExit_phase (w : World) (i : Nat) (code : Int) (sig : Option String) (j : Nat) :
    ((procExit w i code sig).invs j).phase = (w.invs j).phase := by
  unfold procExit cleanupStep
  dsimp only
  rw [settleOnce_phase]
  by_cases h : j = i
  · subst h
    rw [setInv_invs_self]
    dsimp only
    rw [setInv_invs_self]
  · rw [setInv_invs_ne _ _ _ h]
    dsimp only
    rw [setInv_invs_ne _ _ _ h]

theorem dataOut_fields (w : World) (i : Nat) (chunk : String) :
    (dataOut w i chunk).pendingPrompt = w.pendingPrompt ∧
    (dataOut w i chunk).qwenProcess = w.qwenProcess ∧
    (dataOut w i chunk).next = w.next := ⟨rfl, rfl, rfl⟩

theorem dataOut_inv (w : World) (i : Nat) (chunk : String) (j : Nat) :
    ((dataOut w i chunk).invs j).phase = (w.invs j).phase ∧
    ((dataOut w i chunk).invs j).settle = (w.invs j).settle ∧
    ((dataOut w i chunk).invs j).proc = (w.invs j).proc ∧
    ((dataOut w i chunk).invs j).listener = (w.invs j).listener := by
  by_cases h : j = i
  · subst h
    unfold dataOut
    rw [setInv_invs_self]
    exact ⟨rfl, rfl, rfl, rfl⟩
  · unfold dataOut
    rw [setInv_invs_ne _ _ _ h]
    exact ⟨rfl, rfl, rfl, rfl⟩

theorem dataErr_fields (w : World) (i : Nat) (chunk : String) :
    (dataErr w i chunk).pendingPrompt = w.pendingPrompt ∧
    (dataErr w i chunk).qwenProcess = w.qwenProcess ∧
    (dataErr w i chunk).next = w.next := ⟨rfl, rfl, rfl⟩

theorem dataErr_inv (w : World) (i : Nat) (chunk : String) (j : Nat) :
    ((dataErr w i chunk).invs j).phase = (w.invs j).phase ∧
    ((dataErr w i chunk).invs j).settle = (w.invs j).settle ∧
    ((dataErr w i chunk).invs j).proc = (w.invs j).proc ∧
    ((dataErr w i chunk).invs j).listener = (w.invs j).listener := by
  by_cases h : j = i
  · subst h
    unfold dataErr
    rw [setInv_invs_self]
    exact ⟨rfl, rfl, rfl, rfl⟩
  · unfold dataErr
    rw [setInv_invs_ne _ _ _ h]
    exact ⟨rfl, rfl, rfl, rfl⟩

theorem setInv_phase_of (w : World) (i : Nat) (f : PromptInv → PromptInv)
    (hf : ∀ inv, (f inv).phase = inv.phase) (j : Nat) :
    ((setInv w i f).invs j).phase = (w.invs j).phase := by
  by_cases h : j = i
  · subst h; rw [setInv_invs_self, hf]
  · rw [setInv_invs_ne _ _ _ h]

theorem spawnPart_pending (w : World) (t : String) :
    (spawnPart w t).pendingPrompt = some w.next := by
  simp [spawnPart, settleOnce, setInv]

theorem spawnPart_qwen (w : World) (t : String) :
    (spawnPart w t).qwenProcess = some w.next := by
  simp [spawnPart, settleOnce, setInv]

theorem spawnPart_next (w : World) (t : String) :
    (spawnPart w t).next = w.next + 1 := by
  simp [spawnPart, settleOnce, setInv]

theorem spawnPart_invs (w : World) (t : String) (k : Nat) :
    (spawnPart w t).invs k =
      if k = w.next then
        { aborted := false, listener := true, settle := Settle.unsettled,
          phase := Phase.awaiting, proc := some ProcState.alive,
          outBuf := "", errBuf := "", stopReason := none, timerDone := false }
      else w.invs k := by
  by_cases h : k = w.next
  · subst h; simp [spawnPart, settleOnce, setInv]
  · simp [spawnPart, settleOnce, setInv, h]

/-! ## Preservation of the handle/phase invariant -/

theorem handleInv_init : HandleInv initWorld := by
  refine ⟨?_, ?_, ?_, ?_⟩
  · intro i hi; exact Option.noConfusion hi
  · intro j hj; exact Option.noConfusion hj
  · intro j k hj _; exact Phase.noConfusion hj
  · intro j hj; exact Phase.noConfusion hj

theorem handleInv_start (w : World) (blocks : List ContentBlock)
    (h : HandleInv w) (hg : ∀ j, j < w.next → (w.invs j).phase ≠ Phase.awaiting) :
    HandleInv (startPrompt w blocks) := by
  obtain ⟨hA, hB, hC, hD⟩ := h
  have hnoaw : ∀ j, (w.invs j).phase ≠ Phase.awaiting := fun j hj => hg j (hD j hj) hj
  have hp : w.pendingPrompt = none := by
    cases hp : w.pendingPrompt with
    | none => rfl
    | some j => exact absurd (hB j hp) (hnoaw j)
  have hap : startPrompt w blocks = spawnPart w (convertPromptToText blocks) := by
    rw [startPrompt, abortPending, hp]
  rw [hap]
  refine ⟨?_, ?_, ?_, ?_⟩
  · intro k hk
    rw [spawnPart_qwen] at hk
    injection hk with hk'
    subst hk'
    refine ⟨by rw [spawnPart_pending], ?_, ?_, ?_, ?_⟩ <;> simp [spawnPart_invs]
  · intro j hj
    rw [spawnPart_pending] at hj
    injection hj with hj'
    subst hj'
    simp [spawnPart_invs]
  · intro a b ha hb
    rw [spawnPart_invs] at ha hb
    by_cases h1 : a = w.next <;> by_cases h2 : b = w.next
    · rw [h1, h2]
    · rw [if_neg h2] at hb; exact absurd hb (hnoaw b)
    · rw [if_neg h1] at ha; exact absurd ha (hnoaw a)
    · rw [if_neg h1] at ha; exact absurd ha (hnoaw a)
  · intro a ha
    rw [spawnPart_invs] at ha
    rw [spawnPart_next]
    by_cases h1 : a = w.next
    · omega
    · rw [if_neg h1] at ha; exact absurd ha (hnoaw a)

theorem handleInv_resume (w : World) (i : Nat) (h : HandleInv w)
    (hph : (w.invs i).phase = Phase.awaiting)
    (hse : (w.invs i).settle ≠ Settle.unsettled) :
    HandleInv (resumePrompt w i) := by
  obtain ⟨hA, hB, hC, hD⟩ := h
  have hqn : w.qwenProcess = none := by
    cases hq : w.qwenProcess with
    | none => rfl
    | some k =>
      obtain ⟨-, hkph, hkse, -, -⟩ := hA k hq
      have hki : k = i := hC k i hkph hph
      subst hki
      exact absurd hkse hse
  refine ⟨?_, ?_, ?_, ?_⟩
  · intro k hk
    rw [resumePrompt_qwen, hqn] at hk
    exact Option.noConfusion hk
  · intro j hj
    rw [resumePrompt_pending] at hj
    exact Option.noConfusion hj
  · intro a b ha hb
    have ha' : a ≠ i := by
      intro e; subst e; rw [resumePrompt_phase_self] at ha; exact absurd ha (by decide)
    have hb' : b ≠ i := by
      intro e; subst e; rw [resumePrompt_phase_self] at hb; exact absurd hb (by decide)
    rw [resumePrompt_phase_ne _ _ ha'] at ha
    rw [resumePrompt_phase_ne _ _ hb'] at hb
    exact hC a b ha hb
  · intro a ha
    rw [resumePrompt_next]
    by_cases e : a = i
    · subst e; rw [resumePrompt_phase_self] at ha; exact absurd ha (by decide)
    · rw [resumePrompt_phase_ne _ _ e] at ha; exact hD a ha

theorem handleInv_cancel (w : World) (h : HandleInv w) :
    HandleInv (cancelSession w) := by
  obtain ⟨hA, hB, hC, hD⟩ := h
  cases hp : w.pendingPrompt with
  | none =>
    have he : cancelSession w = w := by unfold cancelSession; rw [hp]
    rw [he]
    exact ⟨hA, hB, hC, hD⟩
  | some j =>
    obtain ⟨hpn, hqn⟩ := cancelSession_handles w j hp
    refine ⟨?_, ?_, ?_, ?_⟩
    · intro k hk; rw [hqn] at hk; exact Option.noConfusion hk
    · intro k hk; rw [hpn] at hk; exact Option.noConfusion hk
    · intro a b ha hb
      rw [cancelSession_phase] at ha hb
      exact hC a b ha hb
    · intro a ha
      rw [cancelSession_phase] at ha
      rw [cancelSession_next]
      exact hD a ha

theorem handleInv_exit (w : World) (i : Nat) (code : Int) (sig : Option String)
    (h : HandleInv w) : HandleInv (procExit w i code sig) := by
  obtain ⟨hA, hB, hC, hD⟩ := h
  refine ⟨?_, ?_, ?_, ?_⟩
  · intro k hk; rw [procExit_qwen] at hk; exact Option.noConfusion hk
  · intro k hk
    rw [procExit_pending] at hk
    rw [procExit_phase]
    exact hB k hk
  · intro a b ha hb
    rw [procExit_phase] at ha hb
    exact hC a b ha hb
  · intro a ha
    rw [procExit_phase] at ha
    rw [procExit_next]
    exact hD a ha

theorem timeoutFire_pending (w : World) (i : Nat) :
    (timeoutFire w i).pendingPrompt = w.pendingPrompt := by
  unfold timeoutFire cleanupStep
  dsimp only
  split
  · split <;> rfl
  · rfl

theorem timeoutFire_next (w : World) (i : Nat) :
    (timeoutFire w i).next = w.next := by
  unfold timeoutFire cleanupStep
  dsimp only
  split
  · split <;> rfl
  · rfl

theorem setInv_phase_timerDone (w : World) (i j : Nat) :
    ((setInv w i (fun inv => { inv with timerDone := true })).invs j).phase =
      (w.invs j).phase := by
  by_cases hj : j = i
  · subst hj; rw [setInv_invs_self]
  · rw [setInv_invs_ne _ _ _ hj]

theorem setInv_phase_killProc (w : World) (i j : Nat) :
    ((setInv w i (fun inv => { inv with proc := some ProcState.killedPending })).invs j).phase =
      (w.invs j).phase := by
  by_cases hj : j = i
  · subst hj; rw [setInv_invs_self]
  · rw [setInv_invs_ne _ _ _ hj]

theorem setInv_phase_listenerOff (w : World) (i j : Nat) :
    ((setInv w i (fun inv => { inv with listener := false })).invs j).phase =
      (w.invs j).phase := by
  by_cases hj : j = i
  · subst hj; rw [setInv_invs_self]
  · rw [setInv_invs_ne _ _ _ hj]

theorem timeoutFire_phase (w : World) (i : Nat) (j : Nat) :
    ((timeoutFire w i).invs j).phase = (w.invs j).phase := by
  unfold timeoutFire cleanupStep
  dsimp only
  split
  · split <;>
    · rw [settleOnce_phase]
      dsimp only
      rw [setInv_phase_listenerOff, setInv_phase_killProc, setInv_phase_timerDone]
  · rw [setInv_phase_timerDone]

theorem timeoutFire_qwen_cases (w : World) (i : Nat) :
    (timeoutFire w i).qwenProcess = none ∨
    ((timeoutFire w i).qwenProcess = w.qwenProcess ∧ ∀ j,
      ((timeoutFire w i).invs j).settle = (w.invs j).settle ∧
      ((timeoutFire w i).invs j).proc = (w.invs j).proc ∧
      ((timeoutFire w i).invs j).listener = (w.invs j).listener) := by
  unfold timeoutFire cleanupStep
  dsimp only
  split
  · left
    split <;> rfl
  · right
    refine ⟨rfl, fun j => ?_⟩
    by_cases hj : j = i
    · subst hj; rw [setInv_invs_self]; exact ⟨rfl, rfl, rfl⟩
    · rw [setInv_invs_ne _ _ _ hj]; exact ⟨rfl, rfl, rfl⟩

theorem handleInv_timeout (w : World) (i : Nat) (h : HandleInv w) :
    HandleInv (timeoutFire w i) := by
  obtain ⟨hA, hB, hC, hD⟩ := h
  refine ⟨?_, ?_, ?_, ?_⟩
  · intro k hk
    cases timeoutFire_qwen_cases w i with
    | inl hq => rw [hq] at hk; exact Option.noConfusion hk
    | inr hq =>
      rw [hq.1] at hk
      obtain ⟨h1, h2, h3, h4, h5⟩ := hA k hk
      exact ⟨by rw [timeoutFire_pending]; exact h1,
        by rw [timeoutFire_phase]; exact h2,
        by rw [(hq.2 k).1]; exact h3,
        by rw [(hq.2 k).2.1]; exact h4,
        by rw [(hq.2 k).2.2]; exact h5⟩
  · intro k hk
    rw [timeoutFire_pending] at hk
    rw [timeoutFire_phase]
    exact hB k hk
  · intro a b ha hb
    rw [timeoutFire_phase] at ha hb
    exact hC a b ha hb
  · intro a ha
    rw [timeoutFire_phase] at ha
    rw [timeoutFire_next]
    exact hD a ha

theorem handleInv_dataOut (w : World) (i : Nat) (chunk : String)
    (h : HandleInv w) : HandleInv (dataOut w i chunk) := by
  obtain ⟨hA, hB, hC, hD⟩ := h
  refine ⟨?_, ?_, ?_, ?_⟩
  · intro k hk
    rw [(dataOut_fields w i chunk).2.1] at hk
    obtain ⟨h1, h2, h3, h4, h5⟩ := hA k hk
    exact ⟨by rw [(dataOut_fields w i chunk).1]; exact h1,
      by rw [(dataOut_inv w i chunk k).1]; exact h2,
      by rw [(dataOut_inv w i chunk k).2.1]; exact h3,
      by rw [(dataOut_inv w i chunk k).2.2.1]; exact h4,
      by rw [(dataOut_inv w i chunk k).2.2.2]; exact h5⟩
  · intro k hk
    rw [(dataOut_fields w i chunk).1] at hk
    rw [(dataOut_inv w i chunk k).1]
    exact hB k hk
  · intro a b ha hb
    rw [(dataOut_inv w i chunk a).1] at ha
    rw [(dataOut_inv w i chunk b).1] at hb
    exact hC a b ha hb
  · intro a ha
    rw [(dataOut_inv w i chunk a).1] at ha
    rw [(dataOut_fields w i chunk).2.2]
    exact hD a ha

theorem handleInv_dataErr (w : World) (i : Nat) (chunk : String)
    (h : HandleInv w) : HandleInv (dataErr w i chunk) := by
  obtain ⟨hA, hB, hC, hD⟩ := h
  refine ⟨?_, ?_, ?_, ?_⟩
  · intro k hk
    rw [(dataErr_fields w i chunk).2.1] at hk
    obtain ⟨h1, h2, h3, h4, h5⟩ := hA k hk
    exact ⟨by rw [(dataErr_fields w i chunk).1]; exact h1,
      by rw [(dataErr_inv w i chunk k).1]; exact h2,
      by rw [(dataErr_inv w i chunk k).2.1]; exact h3,
      by rw [(dataErr_inv w i chunk k).2.2.1]; exact h4,
      by rw [(dataErr_inv w i chunk k).2.2.2]; exact h5⟩
  · intro k hk
    rw [(dataErr_fields w i chunk).1] at hk
    rw [(dataErr_inv w i chunk k).1]
    exact hB k hk
  · intro a b ha hb
    rw [(dataErr_inv w i chunk a).1] at ha
    rw [(dataErr_inv w i chunk b).1] at hb
    exact hC a b ha hb
  · intro a ha
    rw [(dataErr_inv w i chunk a).1] at ha
    rw [(dataErr_fields w i chunk).2.2]
    exact hD a ha

theorem reachSer_handleInv {w : World} (h : ReachSer w) : HandleInv w := by
  induction h with
  | init => exact handleInv_init
  | stepStart blocks hr hg ih => exact handleInv_start _ blocks ih hg
  | stepResume i hr hph hse ih => exact handleInv_resume _ i ih hph hse
  | stepCancel hr ih => exact handleInv_cancel _ ih
  | stepExit i code sig hr hproc ih => exact handleInv_exit _ i code sig ih
  | stepTimeout i hr hp htd ih => exact handleInv_timeout _ i ih
  | stepDataOut i chunk hr hal ih => exact handleInv_dataOut _ i chunk ih
  | stepDataErr i chunk hr hal ih => exact handleInv_dataErr _ i chunk ih

/-- C3 (amended): in every state reachable under serialized prompts — a new
prompt starts only when no previous prompt invocation is still mid-flight —
a non-null active-process handle implies a non-null active-cancellation
handle (indeed, both handles name the same invocation).  Under preemption
the original invariant fails: the preempted invocation's unconditional
`finally` clears `pendingPrompt` after the new prompt installed its
handles (see the counterexample). -/
theorem c3_serialized_invariant (w : World) (hw : ReachSer w) (i : Nat)
    (hq : w.qwenProcess = some i) : w.pendingPrompt = some i :=
  ((reachSer_handleInv hw).1 i hq).1

/-- Witness for C3's amended statement: one serialized prompt start. -/
theorem c3_serialized_invariant_witness :
    (startPrompt initWorld [ContentBlock.text "hi"]).pendingPrompt = some 0 := by
  have hr : ReachSer (startPrompt initWorld [ContentBlock.text "hi"]) :=
    ReachSer.stepStart _ ReachSer.init (fun j hj => absurd hj (Nat.not_lt_zero j))
  exact c3_serialized_invariant _ hr 0 (by decide)
